import Mathlib

/-!
Shallow embedding of the Klausurmaster repository (Python) in Lean 4,
covering `cards/utils.py`, `formula/ratio.py` and the document/history
operations of `main/app.py`.

Modelling conventions:
* Python `float` values are modelled exactly by `PFloat`: a rational for
  the finite values plus `inf`, `ninf` and `nan` (IEEE special values);
  arithmetic is exact rational arithmetic with the IEEE rules for the
  special values (rounding error is idealised away).
* Python dicts are association lists (first binding wins, as in a dict);
  assignment to an existing key replaces the binding in place.
* A raised exception (`KeyError`, `IndexError`, `ZeroDivisionError`,
  `ValueError`/`TypeError` that is not caught) is `Option.none` /
  an explicit error constructor; deep copies are the identity because
  the embedding has value semantics.
* `float(s)` on a string is `pyFloatOfString`, which covers signs,
  plain decimal notation (`"5.0"`, `".5"`, `"7"`), and the special
  spellings `inf` / `infinity` / `nan` of CPython; exponent notation is
  not needed by any claim and parses to `none`.
-/

namespace Klausurmaster

/-- Model of a Python `float`: exact rational finite values plus the
IEEE special values. -/
inductive PFloat where
  | finite (q : ℚ)
  | inf
  | ninf
  | nan
  deriving DecidableEq, Repr

namespace PFloat

/-- Python `<` on floats: any comparison involving `nan` is `False`. -/
def plt : PFloat → PFloat → Bool
  | nan, _ => false
  | _, nan => false
  | finite a, finite b => decide (a < b)
  | finite _, inf => true
  | finite _, ninf => false
  | inf, _ => false
  | ninf, ninf => false
  | ninf, _ => true

/-- Python `<=` on floats: any comparison involving `nan` is `False`. -/
def ple : PFloat → PFloat → Bool
  | nan, _ => false
  | _, nan => false
  | finite a, finite b => decide (a ≤ b)
  | finite _, inf => true
  | finite _, ninf => false
  | inf, inf => true
  | inf, _ => false
  | ninf, _ => true

/-- Python `==` on floats: `nan` is not equal to anything, itself included. -/
def peq : PFloat → PFloat → Bool
  | nan, _ => false
  | _, nan => false
  | finite a, finite b => decide (a = b)
  | inf, inf => true
  | ninf, ninf => true
  | _, _ => false

/-- IEEE negation. -/
def pneg : PFloat → PFloat
  | finite q => finite (-q)
  | inf => ninf
  | ninf => inf
  | nan => nan

/-- IEEE addition (exact on finite values). -/
def padd : PFloat → PFloat → PFloat
  | nan, _ => nan
  | _, nan => nan
  | inf, ninf => nan
  | ninf, inf => nan
  | inf, _ => inf
  | _, inf => inf
  | ninf, _ => ninf
  | _, ninf => ninf
  | finite a, finite b => finite (a + b)

/-- IEEE subtraction. -/
def psub (a b : PFloat) : PFloat := padd a (pneg b)

/-- IEEE multiplication (exact on finite values); `0 * inf` is `nan`. -/
def pmul : PFloat → PFloat → PFloat
  | nan, _ => nan
  | _, nan => nan
  | finite a, finite b => finite (a * b)
  | finite a, inf => if a = 0 then nan else if 0 < a then inf else ninf
  | finite a, ninf => if a = 0 then nan else if 0 < a then ninf else inf
  | inf, finite b => if b = 0 then nan else if 0 < b then inf else ninf
  | ninf, finite b => if b = 0 then nan else if 0 < b then ninf else inf
  | inf, inf => inf
  | inf, ninf => ninf
  | ninf, inf => ninf
  | ninf, ninf => inf

/-- Python float division.  Dividing by (finite) zero raises
`ZeroDivisionError`, modelled as `none`, whatever the dividend is. -/
def pdiv : PFloat → PFloat → Option PFloat
  | _, finite 0 => none
  | nan, _ => some nan
  | _, nan => some nan
  | finite a, finite b => some (finite (a / b))
  | finite _, inf => some (finite 0)
  | finite _, ninf => some (finite 0)
  | inf, finite b => some (if 0 < b then inf else ninf)
  | ninf, finite b => some (if 0 < b then ninf else inf)
  | inf, inf => some nan
  | inf, ninf => some nan
  | ninf, inf => some nan
  | ninf, ninf => some nan

/-- Absolute value. -/
def pabs : PFloat → PFloat
  | finite q => finite (abs q)
  | inf => inf
  | ninf => inf
  | nan => nan

/-- True exactly on the finite values. -/
def isFinite : PFloat → Bool
  | finite _ => true
  | _ => false

end PFloat

/-- Model of a Python value as far as the card data ever holds one:
strings, ints, floats, bools, `None`, dicts with string keys, lists. -/
inductive RawVal where
  | str (s : String)
  | int (n : ℤ)
  | float (f : PFloat)
  | bool (b : Bool)
  | none
  | dict (fields : List (String × RawVal))
  | list (xs : List RawVal)
  deriving Repr

/-- Lookup in an association list, first binding wins (Python dict lookup;
`Option.none` is a `KeyError`). -/
def lookupA {α : Type} : List (String × α) → String → Option α
  | [], _ => Option.none
  | (k, v) :: rest, key => if k = key then some v else lookupA rest key

/-- Python `d.get(key, default)`. -/
def dGetD (d : List (String × RawVal)) (key : String) (dflt : RawVal) : RawVal :=
  match lookupA d key with
  | some v => v
  | Option.none => dflt

/-- Python `d[key] = v` when the key may or may not be present: replaces the
first binding in place, otherwise appends (dict insertion order). -/
def setA {α : Type} : List (String × α) → String → α → List (String × α)
  | [], key, v => [(key, v)]
  | (k, w) :: rest, key, v =>
      if k = key then (key, v) :: rest else (k, w) :: setA rest key v

/-- Python `str.strip()` / the whitespace stripping of `float`: drops
leading and trailing whitespace. -/
def pyStrip (cs : List Char) : List Char :=
  ((cs.dropWhile Char.isWhitespace).reverse.dropWhile Char.isWhitespace).reverse

/-- Python `s.strip()` on a string value. -/
def stripStr (s : String) : String := String.mk (pyStrip s.toList)

/-- Numeric value of a digit list (most significant first). -/
def digitsToNat (cs : List Char) : ℕ :=
  cs.foldl (fun n c => 10 * n + (c.toNat - 48)) 0

/-- Plain decimal notation: digits, optionally a dot with more digits,
at least one digit in total. -/
def parseDecimal (cs : List Char) : Option ℚ :=
  let p := cs.span Char.isDigit
  match p.2 with
  | [] => if p.1 = [] then Option.none else some (digitsToNat p.1)
  | c :: rest =>
      if c = Char.ofNat 46 then
        let fp := rest.span Char.isDigit
        if fp.2 = [] ∧ (p.1 ≠ [] ∨ fp.1 ≠ []) then
          some ((digitsToNat p.1 : ℚ) + (digitsToNat fp.1 : ℚ) / (10 : ℚ) ^ fp.1.length)
        else Option.none
      else Option.none

/-- Python `float(s)` on a string: optional surrounding whitespace and sign,
then either a decimal literal or one of the special spellings
`inf` / `infinity` / `nan` (case-insensitive).  `none` is a `ValueError`. -/
def pyFloatOfString (s : String) : Option PFloat :=
  let cs := pyStrip s.toList
  let signed : Bool × List Char :=
    match cs with
    | c :: rest =>
        if c = Char.ofNat 45 then (true, rest)
        else if c = Char.ofNat 43 then (false, rest) else (false, cs)
    | [] => (false, cs)
  let body := signed.2
  let lower := body.map Char.toLower
  if lower = "inf".toList ∨ lower = "infinity".toList then
    some (if signed.1 then PFloat.ninf else PFloat.inf)
  else if lower = "nan".toList then some PFloat.nan
  else
    match parseDecimal body with
    | some q => some (PFloat.finite (if signed.1 then -q else q))
    | Option.none => Option.none

/-- Python `float(x)` on a card field (`TypeError` / `ValueError` is `none`). -/
def pyFloat : RawVal → Option PFloat
  | RawVal.float f => some f
  | RawVal.int n => some (PFloat.finite (n : ℚ))
  | RawVal.bool b => some (PFloat.finite (if b then 1 else 0))
  | RawVal.str s => pyFloatOfString s
  | RawVal.none => Option.none
  | RawVal.dict _ => Option.none
  | RawVal.list _ => Option.none

/-- Python truthiness, `bool(x)`. -/
def pyBool : RawVal → Bool
  | RawVal.bool b => b
  | RawVal.str s => decide (s ≠ "")
  | RawVal.int n => decide (n ≠ 0)
  | RawVal.float (PFloat.finite q) => decide (q ≠ 0)
  | RawVal.float _ => true
  | RawVal.none => false
  | RawVal.dict d => !d.isEmpty
  | RawVal.list l => !l.isEmpty

/-- Text of a finite float, the way `str` shows one (integral values keep
one decimal).  Only the fact that it is a fixed function of the value
matters to the claims. -/
def pyStrOfRat (q : ℚ) : String :=
  if q.den = 1 then toString q.num ++ ".0" else toString q

/-- Python `str(x)`.  The rendering of containers is abstracted: no claim
inspects it. -/
def pyStr : RawVal → String
  | RawVal.str s => s
  | RawVal.int n => toString n
  | RawVal.bool b => if b then "True" else "False"
  | RawVal.float (PFloat.finite q) => pyStrOfRat q
  | RawVal.float PFloat.inf => "inf"
  | RawVal.float PFloat.ninf => "-inf"
  | RawVal.float PFloat.nan => "nan"
  | RawVal.none => "None"
  | RawVal.dict _ => "\x7b...\x7d"
  | RawVal.list _ => "[...]"

/-- A card dictionary (`CardDict = Dict[str, object]` in `cards/utils.py`). -/
def CardDict : Type := List (String × RawVal)

/-! ## cards/utils.py -/

/-- Default card weight, `DEFAULT_CARD_WEIGHT = 100.0`. -/
def DEFAULT_CARD_WEIGHT : PFloat := PFloat.finite 100

/-- Normalized card dictionary, `create_card` of `cards/utils.py`.  The
`float(weight)` call is the identity here because every caller passes a
float. -/
def create_card (front : String) (back : String := "") (marked : Bool := false)
    (weight : PFloat := DEFAULT_CARD_WEIGHT) : RawVal :=
  RawVal.dict [("front", RawVal.str front), ("back", RawVal.str back),
    ("marked", RawVal.bool marked), ("weight", RawVal.float weight)]

/-- Ensures a legacy card entry contains the expected keys,
`normalize_card_entry` of `cards/utils.py`.  `isinstance(card, str)` and
`isinstance(card, dict)` are the two constructor tests; the
`try: float(weight) except (TypeError, ValueError)` is the `Option` match. -/
def normalize_card_entry : RawVal → RawVal
  | RawVal.str s => create_card s
  | RawVal.dict d =>
      let weight_value : PFloat :=
        match pyFloat (dGetD d "weight" (RawVal.float DEFAULT_CARD_WEIGHT)) with
        | some w => w
        | Option.none => DEFAULT_CARD_WEIGHT
      create_card (pyStr (dGetD d "front" (RawVal.str "")))
        (pyStr (dGetD d "back" (RawVal.str "")))
        (pyBool (dGetD d "marked" (RawVal.bool false)))
        weight_value
  | c => create_card (pyStr c)

/-- Row of cards: column label to card list (`CardRow` of `formula/ratio.py`). -/
def CardRow : Type := List (String × List RawVal)

/-- Full card matrix: row name to `CardRow` (`CardMatrix` of
`formula/ratio.py`). -/
def CardMatrix : Type := List (String × CardRow)

/-- Walks the nested row/column structure and normalizes every card entry,
`normalize_cards_tree` of `cards/utils.py` (the in-place mutation is the
returned value). -/
def normalize_cards_tree (cards : CardMatrix) : CardMatrix :=
  cards.map (fun row =>
    (row.1, row.2.map (fun colEntry =>
      (colEntry.1, colEntry.2.map normalize_card_entry))))

/-- First card whose `front` text matches, `find_card` of `cards/utils.py`
(`card.get("front")` defaults to `None`).  The outer `Option` is an
`AttributeError`: `.get` on a non-dict raises; the inner `Option` is the
`None` the function returns when nothing matches. -/
def find_card : List RawVal → String → Option (Option RawVal)
  | [], _ => some Option.none
  | card :: rest, front_text =>
      match card with
      | RawVal.dict d =>
          if pyStr (dGetD d "front" RawVal.none) = front_text then some (some card)
          else find_card rest front_text
      | _ => Option.none

/-! ## formula/ratio.py -/

/-- Remaps the column value 5.0 to the effective grade 6.0,
`_effective_grade_value` of `formula/ratio.py`:
`6.0 if abs(raw_value - 5.0) < 1e-6 else raw_value`. -/
def effective_grade_value (raw_value : PFloat) : PFloat :=
  if PFloat.plt (PFloat.pabs (PFloat.psub raw_value (PFloat.finite 5)))
      (PFloat.finite (1 / 1000000)) = true
  then PFloat.finite 6 else raw_value

/-- Card count of a row over a column list,
`sum(len(cards[row_name][col]) for col in columns)`; a missing column is a
`KeyError` (`none`). -/
def countCards (rw : CardRow) : List String → Option ℕ
  | [] => some 0
  | col :: rest =>
      match lookupA rw col with
      | Option.none => Option.none
      | some lst =>
          match countCards rw rest with
          | Option.none => Option.none
          | some n => some (lst.length + n)

/-- Accumulation loop of `calculate_ratio`: for each column, a label that
does not parse as a float is skipped (`continue`), otherwise
`count * (5.0 - col_val) / 3.0` is added. -/
def sumFactors (rw : CardRow) : List String → PFloat → Option PFloat
  | [], acc => some acc
  | col :: rest, acc =>
      match pyFloatOfString col with
      | Option.none => sumFactors rw rest acc
      | some cv =>
          match lookupA rw col with
          | Option.none => Option.none
          | some lst =>
              let col_val := effective_grade_value cv
              match PFloat.pdiv (PFloat.psub (PFloat.finite 5) col_val)
                  (PFloat.finite 3) with
              | Option.none => Option.none
              | some normalized =>
                  sumFactors rw rest
                    (PFloat.padd acc (PFloat.pmul (PFloat.finite lst.length) normalized))

/-- Row performance ratio, `calculate_ratio` of `formula/ratio.py`.  `none`
is an uncaught exception (a `KeyError` from a column missing in the row). -/
def calculate_ratio (row_name : String) (cards : CardMatrix)
    (columns : List String) : Option PFloat :=
  match lookupA cards row_name with
  | Option.none => some (PFloat.finite 0)
  | some rw =>
      match countCards rw columns with
      | Option.none => Option.none
      | some total_cards =>
          if total_cards = 0 then some (PFloat.finite 0)
          else
            match sumFactors rw columns (PFloat.finite 0) with
            | Option.none => Option.none
            | some sum_factors => PFloat.pdiv sum_factors (PFloat.finite total_cards)

/-- Inner card loop of `calculate_expected_grade`: weight extraction with
default 100.0, skip of non-positive weights, then accumulation of
`weighted_sum` and `total_weight` (as a pair, in that order). -/
def gradeCardLoop (col_value : PFloat) :
    List RawVal → PFloat → PFloat → Option (PFloat × PFloat)
  | [], weighted_sum, total_weight => some (weighted_sum, total_weight)
  | card :: rest, weighted_sum, total_weight =>
      match card with
      | RawVal.dict d =>
          let weight : PFloat :=
            match pyFloat (dGetD d "weight" (RawVal.float (PFloat.finite 100))) with
            | some w => w
            | Option.none => PFloat.finite 100
          if PFloat.ple weight (PFloat.finite 0) = true then
            gradeCardLoop col_value rest weighted_sum total_weight
          else
            match PFloat.pdiv weight (PFloat.finite 100) with
            | Option.none => Option.none
            | some normalized_weight =>
                gradeCardLoop col_value rest
                  (PFloat.padd weighted_sum (PFloat.pmul col_value normalized_weight))
                  (PFloat.padd total_weight normalized_weight)
      | _ => Option.none

/-- Column loop of `calculate_expected_grade`: non-numeric labels are
skipped before any lookup; numeric labels index the row (`KeyError` when
absent) and run the card loop. -/
def gradeColumnLoop (rw : CardRow) :
    List String → PFloat → PFloat → Option (PFloat × PFloat)
  | [], weighted_sum, total_weight => some (weighted_sum, total_weight)
  | col :: rest, weighted_sum, total_weight =>
      match pyFloatOfString col with
      | Option.none => gradeColumnLoop rw rest weighted_sum total_weight
      | some cv =>
          match lookupA rw col with
          | Option.none => Option.none
          | some lst =>
              match gradeCardLoop (effective_grade_value cv) lst
                  weighted_sum total_weight with
              | Option.none => Option.none
              | some p => gradeColumnLoop rw rest p.1 p.2

/-- Weighted expected grade of a row, `calculate_expected_grade` of
`formula/ratio.py`. -/
def calculate_expected_grade (row_name : String) (cards : CardMatrix)
    (columns : List String) : Option PFloat :=
  match lookupA cards row_name with
  | Option.none => some (PFloat.finite 0)
  | some rw =>
      match gradeColumnLoop rw columns (PFloat.finite 0) (PFloat.finite 0) with
      | Option.none => Option.none
      | some p =>
          if PFloat.peq p.2 (PFloat.finite 0) = true then some (PFloat.finite 0)
          else PFloat.pdiv p.1 p.2

/-! ## main/app.py — document, selection, history

The Tk widgets, message boxes and file I/O of `app.py` are outside the
embedding; only the document (`self.data`), the selected row and the two
history stacks are modelled.  `copy.deepcopy` is the identity under value
semantics. -/

/-- One table of the document: the dict with keys `rows`, `columns`,
`cards`, `row_colors` modelled as a structure. -/
structure TableData where
  rows : List String
  columns : List String
  cards : CardMatrix
  row_colors : List (String × String)

/-- The document `self.data`: keys `current_table` and `tables`. -/
structure DocData where
  current_table : Option String
  tables : List (String × TableData)

/-- One history snapshot as built by `_capture_history_state`. -/
structure Snapshot where
  data : DocData
  selected_row : Option String

/-- The mutable application state the history claims are about. -/
structure AppState where
  data : DocData
  selected_row_name : Option String
  history : List Snapshot
  future : List Snapshot

/-- History depth bound, `self.max_history = 7`. -/
def max_history : ℕ := 7

/-- Minimum card weight, `self.card_weight_min = 10.0`. -/
def card_weight_min : PFloat := PFloat.finite 10

/-- Maximum card weight, `self.card_weight_max = 200.0`. -/
def card_weight_max : PFloat := PFloat.finite 200

/-- Current table of the document, `get_current_table_data` (the window
title update is UI only). -/
def get_current_table_data (d : DocData) : Option TableData :=
  match d.current_table with
  | Option.none => Option.none
  | some t => lookupA d.tables t

/-- Resets an invalid row selection, `ensure_row_selection_valid`:
`None` whenever there is no current table, the table has no rows, or the
selected name is not among them. -/
def ensure_row_selection_valid (s : AppState) : AppState :=
  match get_current_table_data s.data with
  | Option.none => { s with selected_row_name := Option.none }
  | some td =>
      if td.rows.isEmpty then { s with selected_row_name := Option.none }
      else
        match s.selected_row_name with
        | Option.none => { s with selected_row_name := Option.none }
        | some r =>
            if r ∈ td.rows then s else { s with selected_row_name := Option.none }

/-- Deep snapshot of document plus selection, `_capture_history_state`. -/
def capture_history_state (s : AppState) : Snapshot :=
  ⟨s.data, s.selected_row_name⟩

/-- The overflow eviction applied to both stacks: after an append, when the
length exceeds `max_history` the oldest entry (index 0, `pop(0)`) goes. -/
def trimHist (l : List Snapshot) : List Snapshot :=
  if max_history < l.length then l.tail else l

/-- Push a snapshot, evict the oldest entry past `max_history`, clear the
redo stack: `_record_history`. -/
def record_history (s : AppState) : AppState :=
  { s with history := trimHist (s.history ++ [capture_history_state s]),
           future := [] }

/-- Restores a snapshot, `_apply_history_state` (the tree rebuild, table
redraw and save are UI / I/O). -/
def apply_history_state (s : AppState) (st : Snapshot) : AppState :=
  ensure_row_selection_valid
    { s with data := st.data, selected_row_name := st.selected_row }

/-- Undo, `undo_action`: no-op on empty history; otherwise the current
state is pushed on `future` (trimmed at `max_history`), the last history
snapshot is popped and applied. -/
def undo_action (s : AppState) : AppState :=
  match s.history.getLast? with
  | Option.none => s
  | some st =>
      apply_history_state
        { s with future := trimHist (s.future ++ [capture_history_state s]),
                 history := s.history.dropLast }
        st

/-- Redo, `redo_action`: symmetric to `undo_action`. -/
def redo_action (s : AppState) : AppState :=
  match s.future.getLast? with
  | Option.none => s
  | some st =>
      apply_history_state
        { s with history := trimHist (s.history ++ [capture_history_state s]),
                 future := s.future.dropLast }
        st

/-- Expected-grade values collected per row by
`_build_navigation_tree_impl`.  `calculate_ratio` returns a float and is
never `None`, so the `if ratio is None or expected_grade is None: continue`
test in the source never skips a row; an exception inside either call
propagates (outer `none`). -/
def collectGrades (cards : CardMatrix) (columns : List String) :
    List String → Option (List PFloat)
  | [] => some []
  | r :: rest =>
      match calculate_ratio r cards columns with
      | Option.none => Option.none
      | some _ =>
          match calculate_expected_grade r cards columns with
          | Option.none => Option.none
          | some g =>
              match collectGrades cards columns rest with
              | Option.none => Option.none
              | some gs => some (g :: gs)

/-- Per-table aggregate of `_build_navigation_tree_impl`, before string
formatting: the inner `none` is the placeholder `"—"`, otherwise the value
shown as `f-string` with two decimals is `sum(values) / len(values)`. -/
def space_average (td : TableData) : Option (Option PFloat) :=
  if td.rows.isEmpty then some Option.none
  else
    match collectGrades td.cards td.columns td.rows with
    | Option.none => Option.none
    | some values =>
        if values.isEmpty then some Option.none
        else
          match PFloat.pdiv (values.foldl PFloat.padd (PFloat.finite 0))
              (PFloat.finite values.length) with
          | Option.none => Option.none
          | some m => some (some m)

/-- Python two-argument `min(a, b)`: `b` when `b < a`, else `a`. -/
def pymin2 (a b : PFloat) : PFloat := if PFloat.plt b a then b else a

/-- Python two-argument `max(a, b)`: `b` when `a < b`, else `a`. -/
def pymax2 (a b : PFloat) : PFloat := if PFloat.plt a b then b else a

/-- Nearest integer with ties to even, the rounding of CPython `round`. -/
def rndHE (q : ℚ) : ℤ :=
  if q - Int.floor q < 1 / 2 then Int.floor q
  else if 1 / 2 < q - Int.floor q then Int.floor q + 1
  else if Even (Int.floor q) then Int.floor q else Int.floor q + 1

/-- Python `round(x, 2)` on a float (special values round to themselves). -/
def pyRound2 : PFloat → PFloat
  | PFloat.finite q => PFloat.finite ((rndHE (100 * q) : ℚ) / 100)
  | f => f

/-- Weight of a card dict with the 100.0 fallback, `_extract_card_weight`. -/
def extract_card_weight (d : List (String × RawVal)) : PFloat :=
  match pyFloat (dGetD d "weight" (RawVal.float (PFloat.finite 100))) with
  | some w => w
  | Option.none => PFloat.finite 100

/-- Replaces the first card whose `front` matches (the in-place mutation of
the dict `find_card` returned).  Only reached after `find_card` succeeded,
so the non-dict branch cannot fire on the searched prefix. -/
def replace_first_front : List RawVal → String → RawVal → List RawVal
  | [], _, _ => []
  | card :: rest, front, newCard =>
      match card with
      | RawVal.dict d =>
          if pyStr (dGetD d "front" RawVal.none) = front then newCard :: rest
          else card :: replace_first_front rest front newCard
      | c => c :: replace_first_front rest front newCard

/-- Clamped weight adjustment, `adjust_card_weight`.  `none` is the
`AttributeError` a non-dict card entry would raise inside `find_card`
(no mutation has happened at that point).  `if not card_dict` treats both
`None` and an empty dict as "not found". -/
def adjust_card_weight (s : AppState) (row_name col_name card_front : String)
    (delta : PFloat) : Option AppState :=
  match s.data.current_table with
  | Option.none => some s
  | some t =>
      match lookupA s.data.tables t with
      | Option.none => some s
      | some td =>
          match lookupA td.cards row_name with
          | Option.none => some s
          | some rw =>
              match lookupA rw col_name with
              | Option.none => some s
              | some lst =>
                  match find_card lst card_front with
                  | Option.none => Option.none
                  | some Option.none => some s
                  | some (some card) =>
                      match card with
                      | RawVal.dict d =>
                          if d.isEmpty then some s
                          else
                            let s1 := record_history s
                            let current_weight := extract_card_weight d
                            let new_weight :=
                              pymax2 card_weight_min
                                (pymin2 card_weight_max (PFloat.padd current_weight delta))
                            let d2 := setA d "weight" (RawVal.float (pyRound2 new_weight))
                            let lst2 := replace_first_front lst card_front (RawVal.dict d2)
                            let td2 := { td with cards := setA td.cards row_name (setA rw col_name lst2) }
                            some { s1 with
                              data := { s1.data with tables := setA s1.data.tables t td2 } }
                      | _ => some s

/-- Row creation, `_create_row_entry`.  `freshColor` stands for the draw of
`random_pastel_color()`; `preferred_color or random_pastel_color()` takes
the fresh colour when the preferred one is `None` or empty (falsy). -/
def create_row_entry (s : AppState) (row_name0 : String)
    (preferred_color : Option String) (freshColor : String) :
    (Bool × Option String) × AppState :=
  match s.data.current_table with
  | Option.none => ((false, some "Kein Space geladen!"), s)
  | some t =>
      match lookupA s.data.tables t with
      | Option.none => ((false, some "Kein Space geladen!"), s)
      | some td =>
          let row_name := stripStr row_name0
          if row_name = "" then ((false, some "Name darf nicht leer sein"), s)
          else if 9 ≤ td.rows.length then
            ((false, some "Maximal 9 Tabellen sind erlaubt!"), s)
          else if row_name ∈ td.rows then ((false, some "Tabelle existiert bereits"), s)
          else
            let s1 := record_history s
            let color :=
              match preferred_color with
              | some c => if c = "" then freshColor else c
              | Option.none => freshColor
            let td2 := { td with
              rows := td.rows ++ [row_name],
              cards := setA td.cards row_name (td.columns.map (fun c => (c, ([] : List RawVal)))),
              row_colors := setA td.row_colors row_name color }
            let s2 := { s1 with
              data := { s1.data with tables := setA s1.data.tables t td2 },
              selected_row_name := some row_name }
            ((true, Option.none), ensure_row_selection_valid s2)

/-- Result of a mutating handler that may raise: `err` carries the state at
the moment of the uncaught exception. -/
inductive MutResult where
  | ok (s : AppState)
  | err (s : AppState)

/-- Card insertion, `add_card_to_row_by_name`.  `prompt` is the value of
`_build_card_prompt` (`none` for a cancelled dialog).  A missing table
shows a message box and returns; an empty column list raises `IndexError`
at `columns[0]` before any mutation; a missing row (or missing first
column in the row) raises `KeyError` at `cards[row_name][first_col]` after
`_record_history` has already pushed a snapshot. -/
def add_card_to_row_by_name (s : AppState) (row_name : String)
    (prompt : Option String) : MutResult :=
  match s.data.current_table with
  | Option.none => MutResult.ok s
  | some t =>
      match lookupA s.data.tables t with
      | Option.none => MutResult.ok s
      | some td =>
          match prompt with
          | Option.none => MutResult.ok s
          | some card_name =>
              if card_name = "" then MutResult.ok s
              else
                match td.columns.head? with
                | Option.none => MutResult.err s
                | some first_col =>
                    let s1 := record_history s
                    match lookupA td.cards row_name with
                    | Option.none => MutResult.err s1
                    | some rw =>
                        match lookupA rw first_col with
                        | Option.none => MutResult.err s1
                        | some lst =>
                            let td2 := { td with
                              cards := setA td.cards row_name
                                (setA rw first_col (lst ++ [create_card card_name])) }
                            MutResult.ok { s1 with
                              data := { s1.data with tables := setA s1.data.tables t td2 },
                              selected_row_name := some row_name }

/-! ## Spec-side definitions

The definitions below restate formulas the way the specification words
them; the theorems compare them against the embedded source functions. -/

/-- Weight field of a card dict (reading aid for the statements). -/
def weightOf : RawVal → Option RawVal
  | RawVal.dict d => lookupA d "weight"
  | _ => Option.none

/-- Columns whose label parses as a float. -/
def numericColumns (columns : List String) : List String :=
  columns.filter (fun c => (pyFloatOfString c).isSome)

/-- Ratio formula as claim C1 words it: both the accumulated sum and the
card-count denominator range over the numeric-labeled columns only. -/
def ratio_numeric_denominator_claim (row_name : String) (cards : CardMatrix)
    (columns : List String) : Option PFloat :=
  match lookupA cards row_name with
  | Option.none => some (PFloat.finite 0)
  | some rw =>
      match countCards rw (numericColumns columns) with
      | Option.none => Option.none
      | some total_cards =>
          if total_cards = 0 then some (PFloat.finite 0)
          else
            match sumFactors rw (numericColumns columns) (PFloat.finite 0) with
            | Option.none => Option.none
            | some sum_factors => PFloat.pdiv sum_factors (PFloat.finite total_cards)

/-- Mathematical clamp on rationals, the `clamp(x, lo, hi)` of the spec. -/
def clampQ (x lo hi : ℚ) : ℚ := min hi (max lo x)

/-- Eight states fed one after the other through `_record_history`: each
pair sets the document and selection, then records. -/
def recordSeq (s : AppState) (ps : List (DocData × Option String)) : AppState :=
  ps.foldl (fun st p =>
    record_history { st with data := p.1, selected_row_name := p.2 }) s

/-- Selection that `ensure_row_selection_valid` leaves in place for a given
document: unchanged when it names a row of the current table, `None`
otherwise. -/
def ensureSel (d : DocData) (sel : Option String) : Option String :=
  match get_current_table_data d with
  | Option.none => Option.none
  | some td =>
      if td.rows.isEmpty then Option.none
      else
        match sel with
        | Option.none => Option.none
        | some r => if r ∈ td.rows then some r else Option.none

/-- Empty document (no current table). -/
def emptyDoc : DocData := ⟨Option.none, []⟩

/-- Fresh application state over the empty document. -/
def emptyState : AppState := ⟨emptyDoc, Option.none, [], []⟩

/-- One record step over the empty document. -/
def emptyStep : DocData × Option String := (emptyDoc, Option.none)

/-- State of the C4 counterexample: one history entry and a selected row
name `"X"` that is not valid for the live document (no current table). -/
def badSelState : AppState :=
  ⟨emptyDoc, some "X", [⟨emptyDoc, Option.none⟩], []⟩

/-- Expected grades of a list of rows, the quantity claim C5 averages. -/
def expectedGrades (cards : CardMatrix) (columns : List String) :
    List String → Option (List PFloat)
  | [] => some []
  | r :: rest =>
      match calculate_expected_grade r cards columns with
      | Option.none => Option.none
      | some g =>
          match expectedGrades cards columns rest with
          | Option.none => Option.none
          | some gs => some (g :: gs)

/-- Whether a row holds at least one card across the table's columns. -/
def rowHasCards (td : TableData) (r : String) : Bool :=
  match lookupA td.cards r with
  | some rw =>
      match countCards rw td.columns with
      | some n => decide (0 < n)
      | Option.none => false
  | Option.none => false

/-- Per-table aggregate as claim C5 words it: the arithmetic mean of
`expectedGrade` over the rows that have at least one card, with the
placeholder (inner `none`) when no such row exists. -/
def space_average_claim (td : TableData) : Option (Option PFloat) :=
  match expectedGrades td.cards td.columns (td.rows.filter (rowHasCards td)) with
  | Option.none => Option.none
  | some values =>
      if values.isEmpty then some Option.none
      else
        match PFloat.pdiv (values.foldl PFloat.padd (PFloat.finite 0))
            (PFloat.finite values.length) with
        | Option.none => Option.none
        | some m => some (some m)

/-- Table with one row and zero cards. -/
def zeroCardTable : TableData := ⟨["A"], ["1.0"], [("A", [("1.0", [])])], []⟩

/-- Table with a one-card row `"A"` (grade 6) and a zero-card row `"B"`. -/
def mixedTable : TableData :=
  ⟨["A", "B"], ["5.0"],
   [("A", [("5.0", [create_card "a"])]), ("B", [("5.0", [])])], []⟩

/-- A one-table document whose table `"T"` has the single row `"A"`. -/
def validDoc : DocData :=
  ⟨some "T", [("T", ⟨["A"], ["1.0"], [("A", [("1.0", [])])], [("A", "#ffffff")]⟩)]⟩

/-- State over `validDoc` with a valid selection and one history entry. -/
def validState : AppState :=
  ⟨validDoc, some "A", [⟨validDoc, some "A"⟩], []⟩

/-- Table already holding the maximum of 9 rows. -/
def nineRowTable : TableData :=
  ⟨["R1", "R2", "R3", "R4", "R5", "R6", "R7", "R8", "R9"], ["1.0"], [], []⟩

/-- State whose current table has 9 rows. -/
def nineRowState : AppState :=
  ⟨⟨some "T", [("T", nineRowTable)]⟩, Option.none, [], []⟩

/-- State whose current table has a first column `"A"` but no rows at all in
its card matrix: the target row of the C8 counterexample is absent. -/
def missingRowState : AppState :=
  ⟨⟨some "T", [("T", ⟨[], ["A"], [], []⟩)]⟩, Option.none, [], []⟩

/-- State with a single weight-100 card `"x"` at row `"A"`, column `"1.0"`. -/
def weightState : AppState :=
  ⟨⟨some "T", [("T", ⟨["A"], ["1.0"], [("A", [("1.0", [create_card "x"])])], []⟩)]⟩,
   Option.none, [], []⟩

/-! ## Concrete fixtures used by witnesses and counterexamples -/

/-- Card matrix of claim C2: two cards in column `"5.0"`, none in `"3.0"`,
one in `"1.0"`, all of weight 100. -/
def exampleMatrixC2 : CardMatrix :=
  [("R", [("5.0", [create_card "a", create_card "a"]), ("3.0", []),
    ("1.0", [create_card "a"])])]

/-- Card matrix of the C1 counterexample: one card under the numeric label
`"5.0"` and one under the non-numeric label `"x"`. -/
def exampleMatrixC1 : CardMatrix :=
  [("R", [("5.0", [create_card "a"]), ("x", [create_card "a"])])]

/-- Row that has a `"5.0"` column only. -/
def exampleMatrixOnly50 : CardMatrix :=
  [("R", [("5.0", [create_card "a"])])]

/-- Row that has an `"x"` column only. -/
def exampleMatrixOnlyX : CardMatrix :=
  [("R", [("x", ([] : List RawVal))])]

/-! ## Helper lemmas -/

theorem padd_finite (a b : ℚ) :
    PFloat.padd (PFloat.finite a) (PFloat.finite b) = PFloat.finite (a + b) := rfl

theorem pmul_finite (a b : ℚ) :
    PFloat.pmul (PFloat.finite a) (PFloat.finite b) = PFloat.finite (a * b) := rfl

theorem plt_finite (a b : ℚ) :
    PFloat.plt (PFloat.finite a) (PFloat.finite b) = decide (a < b) := rfl

theorem ple_finite (a b : ℚ) :
    PFloat.ple (PFloat.finite a) (PFloat.finite b) = decide (a ≤ b) := rfl

theorem peq_finite (a b : ℚ) :
    PFloat.peq (PFloat.finite a) (PFloat.finite b) = decide (a = b) := rfl

theorem pdiv_finite (a b : ℚ) (hb : b ≠ 0) :
    PFloat.pdiv (PFloat.finite a) (PFloat.finite b)
      = some (PFloat.finite (a / b)) := by
  simp [PFloat.pdiv, hb]

theorem pdiv_three (x : PFloat) :
    ∃ y, PFloat.pdiv x (PFloat.finite 3) = some y := by
  cases x <;> exact ⟨_, rfl⟩

theorem pdiv_finite_of_ne (x : PFloat) (b : ℚ) (hb : b ≠ 0) :
    ∃ y, PFloat.pdiv x (PFloat.finite b) = some y := by
  have h : (PFloat.pdiv x (PFloat.finite b)).isSome = true := by
    cases x <;> simp [PFloat.pdiv, hb]
  exact Option.isSome_iff_exists.mp h

theorem collectGrades_length (cards : CardMatrix) (columns : List String) :
    ∀ (rows : List String) (values : List PFloat),
      collectGrades cards columns rows = some values →
      values.length = rows.length := by
  intro rows
  induction rows with
  | nil => intro values h; cases h; rfl
  | cons r rest ih =>
      intro values h
      rw [collectGrades] at h
      cases h1 : calculate_ratio r cards columns with
      | none => rw [h1] at h; cases h
      | some x =>
          rw [h1] at h
          cases h2 : calculate_expected_grade r cards columns with
          | none => rw [h2] at h; cases h
          | some g =>
              rw [h2] at h
              cases h3 : collectGrades cards columns rest with
              | none => rw [h3] at h; cases h
              | some gs =>
                  rw [h3] at h
                  cases h
                  simp [ih gs h3]

theorem effective_finite (q : ℚ) :
    effective_grade_value (PFloat.finite q)
      = if |q - 5| < 1 / 1000000 then PFloat.finite 6 else PFloat.finite q := by
  simp [effective_grade_value, PFloat.plt, PFloat.pabs, PFloat.psub, PFloat.padd,
    PFloat.pneg, sub_eq_add_neg]

theorem parse_50 : pyFloatOfString "5.0" = some (PFloat.finite 5) := by
  simp +decide [pyFloatOfString, pyStrip, parseDecimal, digitsToNat]

theorem parse_30 : pyFloatOfString "3.0" = some (PFloat.finite 3) := by
  simp +decide [pyFloatOfString, pyStrip, parseDecimal, digitsToNat]

theorem parse_10 : pyFloatOfString "1.0" = some (PFloat.finite 1) := by
  simp +decide [pyFloatOfString, pyStrip, parseDecimal, digitsToNat]

theorem parse_x : pyFloatOfString "x" = Option.none := by
  simp +decide [pyFloatOfString, pyStrip, parseDecimal, digitsToNat]

theorem normalize_card_entry_idem (c : RawVal) :
    normalize_card_entry (normalize_card_entry c) = normalize_card_entry c := by
  cases c <;>
    simp [normalize_card_entry, create_card, pyStr, pyFloat, pyBool, dGetD,
      lookupA, DEFAULT_CARD_WEIGHT]

theorem normalize_cards_tree_idem (t : CardMatrix) :
    normalize_cards_tree (normalize_cards_tree t) = normalize_cards_tree t := by
  simp [normalize_cards_tree, List.map_map, Function.comp_def,
    normalize_card_entry_idem]

theorem weightOf_create_card (f b : String) (m : Bool) (w : PFloat) :
    weightOf (create_card f b m w) = some (RawVal.float w) := rfl

theorem weightOf_normalize_float (c : RawVal) :
    ∃ w : PFloat, weightOf (normalize_card_entry c) = some (RawVal.float w) := by
  cases c <;> exact ⟨_, rfl⟩

theorem ensure_row_selection_valid_eq (s : AppState) :
    ensure_row_selection_valid s
      = { s with selected_row_name := ensureSel s.data s.selected_row_name } := by
  unfold ensure_row_selection_valid ensureSel
  cases h : get_current_table_data s.data with
  | none => rfl
  | some td =>
      by_cases hr : td.rows.isEmpty
      · simp [hr]
      · simp only [hr, Bool.false_eq_true, if_false]
        cases hs : s.selected_row_name with
        | none => rfl
        | some r =>
            by_cases hm : r ∈ td.rows
            · simp [hm, ← hs]
            · simp [hm]

theorem apply_history_state_eq (s : AppState) (st : Snapshot) :
    apply_history_state s st
      = { s with data := st.data,
                 selected_row_name := ensureSel st.data st.selected_row } := by
  unfold apply_history_state
  rw [ensure_row_selection_valid_eq]

theorem trimHist_append_getLast (l : List Snapshot) (a : Snapshot) :
    (trimHist (l ++ [a])).getLast? = some a := by
  unfold trimHist
  split
  · rename_i hlen
    cases l with
    | nil => simp [max_history] at hlen
    | cons x xs => simp
  · simp

theorem rndHE_mem (q : ℚ) : rndHE q = Int.floor q ∨ rndHE q = Int.floor q + 1 := by
  unfold rndHE
  split
  · exact Or.inl rfl
  · split
    · exact Or.inr rfl
    · split
      · exact Or.inl rfl
      · exact Or.inr rfl

theorem le_rndHE (z : ℤ) (q : ℚ) (h : (z : ℚ) ≤ q) : z ≤ rndHE q := by
  have hfl : z ≤ Int.floor q := Int.le_floor.mpr h
  rcases rndHE_mem q with he | he <;> rw [he] <;> omega

theorem rndHE_le (z : ℤ) (q : ℚ) (h : q ≤ (z : ℚ)) : rndHE q ≤ z := by
  have hfl : Int.floor q ≤ z := by
    rw [← Int.floor_intCast (α := ℚ) z]
    exact Int.floor_mono h
  have key : ¬(q - Int.floor q < 1 / 2) → Int.floor q + 1 ≤ z := by
    intro hA
    push_neg at hA
    have hlt : (Int.floor q : ℚ) < q := by linarith
    have : Int.floor q < z := by exact_mod_cast lt_of_lt_of_le hlt h
    omega
  unfold rndHE
  split
  · exact hfl
  · next hA =>
      split
      · exact key hA
      · split
        · exact hfl
        · exact key hA

theorem pyRound2_bounds (q : ℚ) (h10 : 10 ≤ q) (h200 : q ≤ 200) :
    10 ≤ (rndHE (100 * q) : ℚ) / 100 ∧ (rndHE (100 * q) : ℚ) / 100 ≤ 200 := by
  have h1 : (1000 : ℤ) ≤ rndHE (100 * q) :=
    le_rndHE 1000 (100 * q) (by push_cast; linarith)
  have h2 : rndHE (100 * q) ≤ (20000 : ℤ) :=
    rndHE_le 20000 (100 * q) (by push_cast; linarith)
  have h1q : (1000 : ℚ) ≤ (rndHE (100 * q) : ℚ) := by exact_mod_cast h1
  have h2q : ((rndHE (100 * q) : ℚ)) ≤ 20000 := by exact_mod_cast h2
  constructor
  · linarith
  · linarith

theorem clamp_weight_bounds (x : PFloat) :
    ∃ c : ℚ, pymax2 card_weight_min (pymin2 card_weight_max x) = PFloat.finite c
      ∧ 10 ≤ c ∧ c ≤ 200 := by
  cases x with
  | finite a =>
      by_cases h200 : a < 200
      · by_cases h10 : 10 < a
        · refine ⟨a, ?_, le_of_lt h10, le_of_lt h200⟩
          norm_num [pymin2, pymax2, card_weight_min, card_weight_max, plt_finite,
            h200, h10]
        · refine ⟨10, ?_, le_refl 10, by norm_num⟩
          norm_num [pymin2, pymax2, card_weight_min, card_weight_max, plt_finite,
            h200, h10]
      · refine ⟨200, ?_, by norm_num, le_refl 200⟩
        norm_num [pymin2, pymax2, card_weight_min, card_weight_max, plt_finite,
          h200]
  | inf =>
      exact ⟨200, by norm_num [pymin2, pymax2, card_weight_min, card_weight_max,
        PFloat.plt], by norm_num, le_refl 200⟩
  | ninf =>
      exact ⟨10, by norm_num [pymin2, pymax2, card_weight_min, card_weight_max,
        PFloat.plt], le_refl 10, by norm_num⟩
  | nan =>
      exact ⟨200, by norm_num [pymin2, pymax2, card_weight_min, card_weight_max,
        PFloat.plt], by norm_num, le_refl 200⟩

theorem clamp_eq_clampQ (c dl : ℚ) :
    pymax2 card_weight_min
        (pymin2 card_weight_max (PFloat.padd (PFloat.finite c) (PFloat.finite dl)))
      = PFloat.finite (clampQ (c + dl) 10 200) := by
  rw [padd_finite, clampQ]
  by_cases h1 : c + dl < 200
  · have e1 : pymin2 card_weight_max (PFloat.finite (c + dl))
        = PFloat.finite (c + dl) := by
      simp [pymin2, card_weight_max, plt_finite, h1]
    rw [e1]
    by_cases h2 : 10 < c + dl
    · rw [sup_eq_right.mpr (le_of_lt h2), inf_eq_right.mpr (le_of_lt h1)]
      simp [pymax2, card_weight_min, plt_finite, h2]
    · rw [sup_eq_left.mpr (le_of_not_lt h2),
        inf_eq_right.mpr (by norm_num : (10 : ℚ) ≤ 200)]
      simp [pymax2, card_weight_min, plt_finite, h2]
  · have e1 : pymin2 card_weight_max (PFloat.finite (c + dl))
        = PFloat.finite 200 := by
      simp [pymin2, card_weight_max, plt_finite, h1]
    rw [e1]
    have h2 : (10 : ℚ) ≤ c + dl := by linarith [le_of_not_lt h1]
    rw [sup_eq_right.mpr h2, inf_eq_left.mpr (le_of_not_lt h1)]
    simp [pymax2, card_weight_min, plt_finite]
    norm_num

theorem sumFactors_filter (rw : CardRow) :
    ∀ (cols : List String) (acc : PFloat),
      sumFactors rw (numericColumns cols) acc = sumFactors rw cols acc := by
  intro cols
  induction cols with
  | nil => intro _; rfl
  | cons c rest ih =>
      intro acc
      cases hp : pyFloatOfString c with
      | none =>
          have h1 : numericColumns (c :: rest) = numericColumns rest := by
            simp [numericColumns, List.filter_cons, hp]
          rw [h1, ih acc]
          simp [sumFactors, hp]
      | some v =>
          have h1 : numericColumns (c :: rest) = c :: numericColumns rest := by
            simp [numericColumns, List.filter_cons, hp]
          rw [h1]
          cases hl : lookupA rw c with
          | none => simp [sumFactors, hp, hl]
          | some lst =>
              obtain ⟨y, hy⟩ :=
                pdiv_three (PFloat.psub (PFloat.finite 5) (effective_grade_value v))
              simp only [sumFactors, hp, hl, hy]
              exact ih _

theorem sumFactors_of_countCards (rw : CardRow) :
    ∀ (cols : List String) (total : ℕ) (acc : PFloat),
      countCards rw cols = some total →
      ∃ y, sumFactors rw cols acc = some y := by
  intro cols
  induction cols with
  | nil => exact fun _ acc _ => ⟨acc, rfl⟩
  | cons c rest ih =>
      intro total acc h
      cases hl : lookupA rw c with
      | none => rw [countCards, hl] at h; cases h
      | some lst =>
          rw [countCards, hl] at h
          cases hrest : countCards rw rest with
          | none => rw [hrest] at h; cases h
          | some n =>
              cases hp : pyFloatOfString c with
              | none =>
                  simp only [sumFactors, hp]
                  exact ih n acc hrest
              | some v =>
                  obtain ⟨y, hy⟩ :=
                    pdiv_three (PFloat.psub (PFloat.finite 5) (effective_grade_value v))
                  simp only [sumFactors, hp, hl, hy]
                  exact ih n _ hrest

/-! ## Claims -/

/-- Claim C9 (corrected): `normalize_card_entry` is idempotent on every raw
input, `normalize_cards_tree` applied to an already-normalized tree
reproduces it identically, and the weight field of every normalized card is
a float — though not necessarily a finite one (see the counterexample). -/
theorem C9_normalize_idempotent_weight_float :
    (∀ c : RawVal,
        normalize_card_entry (normalize_card_entry c) = normalize_card_entry c)
    ∧ (∀ t : CardMatrix,
        normalize_cards_tree (normalize_cards_tree t) = normalize_cards_tree t)
    ∧ (∀ c : RawVal,
        ∃ w : PFloat, weightOf (normalize_card_entry c) = some (RawVal.float w)) :=
  ⟨normalize_card_entry_idem, normalize_cards_tree_idem, weightOf_normalize_float⟩

/-- Claim C9, counterexample to the finiteness part: a legacy card whose
raw weight is the string `"inf"` normalizes to a card whose weight is the
IEEE infinity, which is not finite. -/
theorem C9_weight_not_always_finite :
    normalize_card_entry (RawVal.dict [("weight", RawVal.str "inf")])
      = create_card "" "" false PFloat.inf
    ∧ PFloat.isFinite PFloat.inf = false :=
  ⟨rfl, rfl⟩

/-- Claim C1, counterexample: with columns `["5.0", "x"]` and one card in
each, `calculate_ratio` divides by the card count over all columns (2),
giving -1/6, while the claimed formula divides by the count over
numeric-labeled columns only (1), giving -1/3. -/
theorem C1_counterexample :
    calculate_ratio "R" exampleMatrixC1 ["5.0", "x"]
      = some (PFloat.finite (-(1 / 6)))
    ∧ ratio_numeric_denominator_claim "R" exampleMatrixC1 ["5.0", "x"]
      = some (PFloat.finite (-(1 / 3)))
    ∧ calculate_ratio "R" exampleMatrixC1 ["5.0", "x"]
      ≠ ratio_numeric_denominator_claim "R" exampleMatrixC1 ["5.0", "x"] := by
  have h1 : calculate_ratio "R" exampleMatrixC1 ["5.0", "x"]
      = some (PFloat.finite (-(1 / 6))) := by
    norm_num +decide [calculate_ratio, exampleMatrixC1, create_card, lookupA,
      countCards, sumFactors, parse_50, parse_x, effective_finite, padd_finite,
      pmul_finite, pdiv_finite, PFloat.psub, PFloat.pneg, PFloat.padd]
  have h2 : ratio_numeric_denominator_claim "R" exampleMatrixC1 ["5.0", "x"]
      = some (PFloat.finite (-(1 / 3))) := by
    norm_num +decide [ratio_numeric_denominator_claim, numericColumns,
      exampleMatrixC1, create_card, lookupA, countCards, sumFactors, parse_50,
      parse_x, effective_finite, padd_finite, pmul_finite, pdiv_finite,
      PFloat.psub, PFloat.pneg, PFloat.padd]
  refine ⟨h1, h2, ?_⟩
  rw [h1, h2]
  intro h
  rw [Option.some.injEq, PFloat.finite.injEq] at h
  norm_num at h

/-- Claim C1 (corrected): whenever the row is present and every listed
column exists in it (so the total count is computed without a `KeyError`)
and the total card count over all columns is positive, the result of
`calculate_ratio` is the sum over the numeric-labeled columns of
`count * (5.0 - effective) / 3.0`, divided by the card count summed over
ALL columns — non-numeric labels are skipped in the sum but still counted
in the denominator. -/
theorem C1_ratio_sums_numeric_counts_all (row : String) (cards : CardMatrix)
    (columns : List String) (rw : CardRow) (total : ℕ)
    (hrow : lookupA cards row = some rw)
    (htot : countCards rw columns = some total)
    (hpos : 0 < total) :
    ∃ numr,
      sumFactors rw (numericColumns columns) (PFloat.finite 0) = some numr
      ∧ calculate_ratio row cards columns
          = PFloat.pdiv numr (PFloat.finite total) := by
  obtain ⟨y, hy⟩ := sumFactors_of_countCards rw columns total (PFloat.finite 0) htot
  have hne : ¬ total = 0 := Nat.pos_iff_ne_zero.mp hpos
  refine ⟨y, ?_, ?_⟩
  · rw [sumFactors_filter]; exact hy
  · simp [calculate_ratio, hrow, htot, hne, hy]

/-- Claim C1, witness: the corrected statement applied to the
counterexample matrix, where the total over both columns is 2. -/
theorem C1_witness :
    ∃ numr,
      sumFactors [("5.0", [create_card "a"]), ("x", [create_card "a"])]
          (numericColumns ["5.0", "x"]) (PFloat.finite 0) = some numr
      ∧ calculate_ratio "R" exampleMatrixC1 ["5.0", "x"]
          = PFloat.pdiv numr (PFloat.finite 2) :=
  C1_ratio_sums_numeric_counts_all "R" exampleMatrixC1 ["5.0", "x"] _ 2
    (by simp +decide [exampleMatrixC1, lookupA])
    (by simp +decide [countCards, lookupA, exampleMatrixC1])
    (by norm_num)

/-- Claim C2 (confirmed): with columns `["5.0", "3.0", "1.0"]`, 2 cards in
`"5.0"`, none in `"3.0"` and 1 card in `"1.0"` (all weight 100),
`calculate_ratio` returns 2/9 and `calculate_expected_grade` returns 13/3,
the column value 5.0 being remapped to the effective grade 6.0. -/
theorem C2_example_ratio_and_expected_grade :
    calculate_ratio "R" exampleMatrixC2 ["5.0", "3.0", "1.0"]
      = some (PFloat.finite (2 / 9))
    ∧ calculate_expected_grade "R" exampleMatrixC2 ["5.0", "3.0", "1.0"]
      = some (PFloat.finite (13 / 3))
    ∧ effective_grade_value (PFloat.finite 5) = PFloat.finite 6 := by
  refine ⟨?_, ?_, ?_⟩
  · norm_num +decide [calculate_ratio, exampleMatrixC2, create_card, lookupA,
      countCards, sumFactors, parse_50, parse_30, parse_10, effective_finite,
      padd_finite, pmul_finite, pdiv_finite, PFloat.psub, PFloat.pneg,
      PFloat.padd]
  · norm_num +decide [calculate_expected_grade, exampleMatrixC2, create_card,
      lookupA, gradeColumnLoop, gradeCardLoop, dGetD, pyFloat, parse_50,
      parse_30, parse_10, effective_finite, padd_finite, pmul_finite,
      pdiv_finite, ple_finite, peq_finite, DEFAULT_CARD_WEIGHT]
  · rw [effective_finite]; norm_num

/-- Claim C10 (confirmed): `calculate_ratio` indexes every listed column of
the row when computing the total card count, so a row that lacks even a
non-numeric listed column makes it raise (`none`); `calculate_expected_grade`
indexes only the columns whose label parses as a float, so it raises when a
numeric column is absent but tolerates an absent non-numeric one; an absent
row makes both return 0.0 safely. -/
theorem C10_lookups_are_partial :
    calculate_ratio "R" exampleMatrixOnly50 ["5.0", "x"] = Option.none
    ∧ calculate_expected_grade "R" exampleMatrixOnlyX ["5.0"] = Option.none
    ∧ calculate_expected_grade "R" exampleMatrixOnly50 ["5.0", "x"]
        = some (PFloat.finite 6)
    ∧ (∀ (cards : CardMatrix) (columns : List String) (row : String),
        lookupA cards row = Option.none →
        calculate_ratio row cards columns = some (PFloat.finite 0)
        ∧ calculate_expected_grade row cards columns = some (PFloat.finite 0)) := by
  refine ⟨?_, ?_, ?_, ?_⟩
  · simp +decide [calculate_ratio, exampleMatrixOnly50, lookupA, countCards]
  · simp +decide [calculate_expected_grade, exampleMatrixOnlyX, lookupA,
      gradeColumnLoop, parse_50]
  · norm_num +decide [calculate_expected_grade, exampleMatrixOnly50, create_card,
      lookupA, gradeColumnLoop, gradeCardLoop, dGetD, pyFloat, parse_50, parse_x,
      effective_finite, padd_finite, pmul_finite, pdiv_finite, ple_finite,
      peq_finite, DEFAULT_CARD_WEIGHT]
  · intro cards columns row h
    constructor
    · simp [calculate_ratio, h]
    · simp [calculate_expected_grade, h]

/-- Claim C10, witness: the safe-absent-row part applied to the empty
matrix. -/
theorem C10_witness :
    calculate_ratio "Z" [] ["5.0"] = some (PFloat.finite 0)
    ∧ calculate_expected_grade "Z" [] ["5.0"] = some (PFloat.finite 0) :=
  C10_lookups_are_partial.2.2.2 [] ["5.0"] "Z" rfl

/-- Claim C3 (confirmed): `_record_history` clears `future` unconditionally,
pushes a deep snapshot of the current document plus selection as the newest
history entry, and after 8 consecutive calls starting from an empty history
the depth is exactly 7 with the first snapshot evicted. -/
theorem C3_record_history_snapshot_seven_deep :
    (∀ s : AppState, (record_history s).future = [])
    ∧ (∀ s : AppState,
        (record_history s).history.getLast? = some (capture_history_state s))
    ∧ (∀ (s : AppState) (p1 p2 p3 p4 p5 p6 p7 p8 : DocData × Option String),
        s.history = [] →
        (recordSeq s [p1, p2, p3, p4, p5, p6, p7, p8]).history
            = [⟨p2.1, p2.2⟩, ⟨p3.1, p3.2⟩, ⟨p4.1, p4.2⟩, ⟨p5.1, p5.2⟩,
               ⟨p6.1, p6.2⟩, ⟨p7.1, p7.2⟩, ⟨p8.1, p8.2⟩]
        ∧ (recordSeq s [p1, p2, p3, p4, p5, p6, p7, p8]).history.length = 7) := by
  refine ⟨fun s => rfl, fun s => trimHist_append_getLast _ _, ?_⟩
  intro s p1 p2 p3 p4 p5 p6 p7 p8 h
  obtain ⟨d, sel, hist, fut⟩ := s
  simp only at h
  subst h
  constructor
  · simp [recordSeq, record_history, trimHist, capture_history_state, max_history]
  · simp [recordSeq, record_history, trimHist, capture_history_state, max_history]

/-- Claim C3, witness: eight recordings over the empty state leave exactly
the last seven snapshots. -/
theorem C3_witness :
    (recordSeq emptyState [emptyStep, emptyStep, emptyStep, emptyStep,
        emptyStep, emptyStep, emptyStep, emptyStep]).history
      = [⟨emptyDoc, Option.none⟩, ⟨emptyDoc, Option.none⟩, ⟨emptyDoc, Option.none⟩,
         ⟨emptyDoc, Option.none⟩, ⟨emptyDoc, Option.none⟩, ⟨emptyDoc, Option.none⟩,
         ⟨emptyDoc, Option.none⟩]
    ∧ (recordSeq emptyState [emptyStep, emptyStep, emptyStep, emptyStep,
        emptyStep, emptyStep, emptyStep, emptyStep]).history.length = 7 :=
  C3_record_history_snapshot_seven_deep.2.2 emptyState
    emptyStep emptyStep emptyStep emptyStep emptyStep emptyStep emptyStep emptyStep
    rfl

/-- Claim C4, counterexample: with a selected row name that is not valid for
the live document (here `"X"` while no table is current), undo followed by
redo restores the document but remaps the selection to `None` through
`ensure_row_selection_valid`, so the full state is not deep-equal. -/
theorem C4_counterexample :
    badSelState.history ≠ []
    ∧ (redo_action (undo_action badSelState)).data = badSelState.data
    ∧ (redo_action (undo_action badSelState)).selected_row_name
        ≠ badSelState.selected_row_name := by
  refine ⟨by simp [badSelState], rfl, ?_⟩
  intro h
  simp [badSelState, undo_action, redo_action, apply_history_state,
    ensure_row_selection_valid, get_current_table_data, emptyDoc, trimHist,
    capture_history_state, max_history] at h

/-- Claim C4 (corrected): for every state with a non-empty history, undo
followed immediately by redo restores the document deep-equal to what it
was before the undo; the selected row is likewise restored whenever it was
valid for that document (that is, `ensure_row_selection_valid` leaves it
unchanged) — an invalid selection is instead remapped to `None`. -/
theorem C4_undo_redo_roundtrip (s : AppState) (h : s.history ≠ []) :
    (redo_action (undo_action s)).data = s.data
    ∧ (ensureSel s.data s.selected_row_name = s.selected_row_name →
        (redo_action (undo_action s)).selected_row_name = s.selected_row_name) := by
  cases hl : s.history.getLast? with
  | none => exact absurd (List.getLast?_eq_none_iff.mp hl) h
  | some st =>
      simp only [undo_action, hl, apply_history_state_eq]
      simp only [redo_action, trimHist_append_getLast, apply_history_state_eq]
      constructor
      · rfl
      · intro hsel
        simpa using hsel

/-- Claim C5, counterexample: a table whose single row has zero cards
reports the mean 0.0 (`some` value) instead of the claimed placeholder
`"—"`, and a table with a one-card row (grade 6) plus a zero-card row
averages over both rows (3.0) instead of only rows with cards (6.0). -/
theorem C5_counterexample :
    space_average zeroCardTable = some (some (PFloat.finite 0))
    ∧ space_average_claim zeroCardTable = some Option.none
    ∧ space_average mixedTable = some (some (PFloat.finite 3))
    ∧ space_average_claim mixedTable = some (some (PFloat.finite 6)) := by
  refine ⟨?_, ?_, ?_, ?_⟩
  · norm_num +decide [space_average, zeroCardTable, collectGrades,
      calculate_ratio, calculate_expected_grade, lookupA, countCards,
      gradeColumnLoop, gradeCardLoop, parse_10, effective_finite, padd_finite,
      pmul_finite, pdiv_finite, peq_finite]
  · norm_num +decide [space_average_claim, zeroCardTable, expectedGrades,
      rowHasCards, lookupA, countCards]
  · norm_num +decide [space_average, mixedTable, collectGrades,
      calculate_ratio, calculate_expected_grade, lookupA, countCards,
      sumFactors, gradeColumnLoop, gradeCardLoop, dGetD, pyFloat, create_card,
      parse_50, effective_finite, padd_finite, pmul_finite, pdiv_finite,
      ple_finite, peq_finite, DEFAULT_CARD_WEIGHT, PFloat.psub, PFloat.pneg,
      PFloat.padd]
  · norm_num +decide [space_average_claim, mixedTable, expectedGrades,
      rowHasCards, calculate_expected_grade, lookupA, countCards,
      gradeColumnLoop, gradeCardLoop, dGetD, pyFloat, create_card, parse_50,
      effective_finite, padd_finite, pmul_finite, pdiv_finite, ple_finite,
      peq_finite, DEFAULT_CARD_WEIGHT]

/-- Claim C5 (corrected): the per-table aggregate is the placeholder `"—"`
exactly when the table has no rows; otherwise (and when no computation
raises) it is the arithmetic mean of `expectedGrade` over ALL rows — rows
with zero cards contribute their expected grade 0.0 to the mean instead of
being excluded. -/
theorem C5_table_average_all_rows :
    (∀ td : TableData, td.rows = [] → space_average td = some Option.none)
    ∧ (∀ (td : TableData) (values : List PFloat),
        td.rows ≠ [] →
        collectGrades td.cards td.columns td.rows = some values →
        values.length = td.rows.length
        ∧ ∃ m, PFloat.pdiv (values.foldl PFloat.padd (PFloat.finite 0))
              (PFloat.finite values.length) = some m
          ∧ space_average td = some (some m)) := by
  constructor
  · intro td h; simp [space_average, h]
  · intro td values hrows hc
    have hlen := collectGrades_length td.cards td.columns td.rows values hc
    refine ⟨hlen, ?_⟩
    have hvne : values.length ≠ 0 := by
      rw [hlen]
      simpa using hrows
    obtain ⟨m, hm⟩ := pdiv_finite_of_ne
      (values.foldl PFloat.padd (PFloat.finite 0)) values.length
      (Nat.cast_ne_zero.mpr hvne)
    refine ⟨m, hm, ?_⟩
    have h1 : td.rows.isEmpty = false := by
      cases h2 : td.rows with
      | nil => exact absurd h2 hrows
      | cons a l => rfl
    have h3 : values.isEmpty = false := by
      cases h4 : values with
      | nil => rw [h4] at hvne; simp at hvne
      | cons a l => rfl
    simp [space_average, h1, hc, h3, hm]

/-- Claim C5, witness: the corrected statement applied to the mixed table,
whose two rows (grades 6 and 0) average to 3. -/
theorem C5_witness :
    [PFloat.finite 6, PFloat.finite 0].length = mixedTable.rows.length
    ∧ ∃ m, PFloat.pdiv ([PFloat.finite 6, PFloat.finite 0].foldl PFloat.padd
          (PFloat.finite 0))
          (PFloat.finite ([PFloat.finite 6, PFloat.finite 0].length : ℕ))
        = some m
      ∧ space_average mixedTable = some (some m) :=
  C5_table_average_all_rows.2 mixedTable [PFloat.finite 6, PFloat.finite 0]
    (by simp [mixedTable])
    (by norm_num +decide [mixedTable, collectGrades, calculate_ratio,
      calculate_expected_grade, lookupA, countCards, sumFactors,
      gradeColumnLoop, gradeCardLoop, dGetD, pyFloat, create_card, parse_50,
      effective_finite, padd_finite, pmul_finite, pdiv_finite, ple_finite,
      peq_finite, DEFAULT_CARD_WEIGHT, PFloat.psub, PFloat.pneg, PFloat.padd])

/-- Claim C4, witness: over a document with current table `"T"` and valid
selected row `"A"`, undo-then-redo restores both document and selection. -/
theorem C4_witness :
    validState.history ≠ []
    ∧ ((redo_action (undo_action validState)).data = validState.data
      ∧ (redo_action (undo_action validState)).selected_row_name
          = validState.selected_row_name) := by
  have hne : validState.history ≠ [] := by simp [validState]
  refine ⟨hne, ?_⟩
  have h := C4_undo_redo_roundtrip validState hne
  exact ⟨h.1, h.2 (by simp +decide [validState, validDoc, ensureSel,
    get_current_table_data, lookupA])⟩

/-- Claim C6 (confirmed): for every card located by `adjust_card_weight` and
every delta and starting weight (any float, special values included), the
weight stored afterwards is `round(clamp(current + delta, 10, 200), 2)`:
it is a finite rational within `[10, 200]`, and for finite current weight
and delta the clamped value is exactly the mathematical
`clamp(current + delta, 10, 200)`. -/
theorem C6_adjust_weight_clamped (s : AppState) (t : String) (td : TableData)
    (row col front : String) (rw : CardRow) (lst : List RawVal)
    (d : List (String × RawVal)) (delta : PFloat)
    (h1 : s.data.current_table = some t)
    (h2 : lookupA s.data.tables t = some td)
    (hrow : lookupA td.cards row = some rw)
    (hcol : lookupA rw col = some lst)
    (hfind : find_card lst front = some (some (RawVal.dict d)))
    (hd : d.isEmpty = false) :
    ∃ q2 : ℚ,
      pyRound2 (pymax2 card_weight_min (pymin2 card_weight_max
          (PFloat.padd (extract_card_weight d) delta))) = PFloat.finite q2
      ∧ 10 ≤ q2 ∧ q2 ≤ 200
      ∧ adjust_card_weight s row col front delta
          = some ⟨⟨s.data.current_table,
              setA s.data.tables t
                ⟨td.rows, td.columns,
                 setA td.cards row (setA rw col
                   (replace_first_front lst front
                     (RawVal.dict (setA d "weight" (RawVal.float (PFloat.finite q2)))))),
                 td.row_colors⟩⟩,
             s.selected_row_name,
             trimHist (s.history ++ [capture_history_state s]),
             []⟩
      ∧ (∀ c dl : ℚ, extract_card_weight d = PFloat.finite c →
          delta = PFloat.finite dl →
          pymax2 card_weight_min (pymin2 card_weight_max
            (PFloat.padd (extract_card_weight d) delta))
            = PFloat.finite (clampQ (c + dl) 10 200)) := by
  obtain ⟨cv, hcv, hcv10, hcv200⟩ :=
    clamp_weight_bounds (PFloat.padd (extract_card_weight d) delta)
  obtain ⟨hb10, hb200⟩ := pyRound2_bounds cv hcv10 hcv200
  refine ⟨(rndHE (100 * cv) : ℚ) / 100, ?_, hb10, hb200, ?_, ?_⟩
  · rw [hcv]; rfl
  · simp only [adjust_card_weight, h1, h2, hrow, hcol, hfind, hd, record_history,
      Bool.false_eq_true, if_false, hcv]
    rfl
  · intro c dl hc hdl
    rw [hc, hdl]
    exact clamp_eq_clampQ c dl

/-- Claim C6, witness: pushing the weight-100 card `"x"` by `+1000` stores
the clamped, rounded weight 200. -/
theorem C6_witness :
    ∃ q2 : ℚ,
      pyRound2 (pymax2 card_weight_min (pymin2 card_weight_max
          (PFloat.padd (extract_card_weight
            [("front", RawVal.str "x"), ("back", RawVal.str ""),
             ("marked", RawVal.bool false),
             ("weight", RawVal.float (PFloat.finite 100))])
            (PFloat.finite 1000)))) = PFloat.finite q2
      ∧ 10 ≤ q2 ∧ q2 ≤ 200
      ∧ adjust_card_weight weightState "A" "1.0" "x" (PFloat.finite 1000)
          = some ⟨⟨weightState.data.current_table,
              setA weightState.data.tables "T"
                ⟨["A"], ["1.0"],
                 setA [("A", [("1.0", [create_card "x"])])] "A"
                   (setA [("1.0", [create_card "x"])] "1.0"
                     (replace_first_front [create_card "x"] "x"
                       (RawVal.dict (setA
                         [("front", RawVal.str "x"), ("back", RawVal.str ""),
                          ("marked", RawVal.bool false),
                          ("weight", RawVal.float (PFloat.finite 100))]
                         "weight" (RawVal.float (PFloat.finite q2)))))),
                 []⟩⟩,
             weightState.selected_row_name,
             trimHist (weightState.history ++ [capture_history_state weightState]),
             []⟩
      ∧ (∀ c dl : ℚ,
          extract_card_weight
            [("front", RawVal.str "x"), ("back", RawVal.str ""),
             ("marked", RawVal.bool false),
             ("weight", RawVal.float (PFloat.finite 100))] = PFloat.finite c →
          PFloat.finite 1000 = PFloat.finite dl →
          pymax2 card_weight_min (pymin2 card_weight_max
            (PFloat.padd (extract_card_weight
              [("front", RawVal.str "x"), ("back", RawVal.str ""),
               ("marked", RawVal.bool false),
               ("weight", RawVal.float (PFloat.finite 100))])
              (PFloat.finite 1000)))
            = PFloat.finite (clampQ (c + dl) 10 200)) :=
  C6_adjust_weight_clamped weightState "T"
    ⟨["A"], ["1.0"], [("A", [("1.0", [create_card "x"])])], []⟩
    "A" "1.0" "x" [("1.0", [create_card "x"])] [create_card "x"]
    [("front", RawVal.str "x"), ("back", RawVal.str ""),
     ("marked", RawVal.bool false), ("weight", RawVal.float (PFloat.finite 100))]
    (PFloat.finite 1000) rfl rfl rfl rfl rfl rfl

/-- Claim C7 (confirmed): `_create_row_entry` returns a failure with a
reason, leaves the entire state (document, selection, history) unchanged
whenever the trimmed name is empty, the table already has 9 rows, or the
name collides with an existing row; with 9 rows and a non-empty name the
reason is the capacity error. -/
theorem C7_create_row_failure_paths (s : AppState) (t : String) (td : TableData)
    (name : String) (pc : Option String) (fresh : String)
    (h1 : s.data.current_table = some t)
    (h2 : lookupA s.data.tables t = some td)
    (hbad : stripStr name = "" ∨ 9 ≤ td.rows.length ∨ stripStr name ∈ td.rows) :
    (create_row_entry s name pc fresh).2 = s
    ∧ (create_row_entry s name pc fresh).1.1 = false
    ∧ (create_row_entry s name pc fresh).1.2.isSome = true
    ∧ (9 ≤ td.rows.length → stripStr name ≠ "" →
        (create_row_entry s name pc fresh).1.2
          = some "Maximal 9 Tabellen sind erlaubt!") := by
  by_cases he : stripStr name = ""
  · simp [create_row_entry, h1, h2, he]
  · by_cases hcap : 9 ≤ td.rows.length
    · simp [create_row_entry, h1, h2, he, hcap]
    · have hmem : stripStr name ∈ td.rows := by
        rcases hbad with h | h | h
        · exact absurd h he
        · exact absurd h hcap
        · exact h
      simp [create_row_entry, h1, h2, he, hcap, hmem]

/-- Claim C7, witness: the 10th row attempt on a 9-row table fails with the
capacity error and the state is untouched. -/
theorem C7_witness :
    (create_row_entry nineRowState "R10" Option.none "#abcdef").2 = nineRowState
    ∧ (create_row_entry nineRowState "R10" Option.none "#abcdef").1.1 = false
    ∧ (create_row_entry nineRowState "R10" Option.none "#abcdef").1.2
        = some "Maximal 9 Tabellen sind erlaubt!" := by
  have h := C7_create_row_failure_paths nineRowState "T" nineRowTable "R10"
    Option.none "#abcdef" rfl rfl
    (Or.inr (Or.inl (by norm_num [nineRowTable])))
  exact ⟨h.1, h.2.1, h.2.2.2 (by norm_num [nineRowTable]) (by decide)⟩

/-- Claim C8, counterexample: with the current table present but the target
row `"R"` absent from its card matrix (and a non-empty card name), the
`cards[row_name][first_col]` lookup raises a `KeyError` instead of failing
silently — and only after `_record_history` has already pushed a snapshot,
so the history has grown even though the document data is unchanged. -/
theorem C8_counterexample :
    add_card_to_row_by_name missingRowState "R" (some "c")
      = MutResult.err (record_history missingRowState)
    ∧ (record_history missingRowState).data = missingRowState.data
    ∧ (record_history missingRowState).history.length
        = missingRowState.history.length + 1 :=
  ⟨rfl, rfl, rfl⟩

/-- Claim C8 (corrected): `add_card_to_row_by_name` always appends the new
card to the card list of the first column (`columns[0]`) of the chosen row
and records a history snapshot first; a missing TABLE is tolerated without
raising and without modifying anything; but a missing ROW raises a
`KeyError` (after the history push) rather than failing silently. -/
theorem C8_add_card_first_column (s : AppState) (t : String) (td : TableData)
    (row nm c0 : String) (rw : CardRow) (lst : List RawVal)
    (h1 : s.data.current_table = some t)
    (h2 : lookupA s.data.tables t = some td)
    (hnm : nm ≠ "")
    (hc0 : td.columns.head? = some c0)
    (hrow : lookupA td.cards row = some rw)
    (hlst : lookupA rw c0 = some lst) :
    (add_card_to_row_by_name s row (some nm)
      = MutResult.ok
          ⟨⟨s.data.current_table,
            setA s.data.tables t
              ⟨td.rows, td.columns,
               setA td.cards row (setA rw c0 (lst ++ [create_card nm])),
               td.row_colors⟩⟩,
           some row,
           trimHist (s.history ++ [capture_history_state s]),
           []⟩)
    ∧ (∀ (s' : AppState) (row' : String) (prompt : Option String),
        s'.data.current_table = Option.none →
        add_card_to_row_by_name s' row' prompt = MutResult.ok s')
    ∧ (∀ (s' : AppState) (t' : String) (td' : TableData) (row' nm' c0' : String),
        s'.data.current_table = some t' →
        lookupA s'.data.tables t' = some td' →
        nm' ≠ "" →
        td'.columns.head? = some c0' →
        lookupA td'.cards row' = Option.none →
        add_card_to_row_by_name s' row' (some nm')
          = MutResult.err (record_history s')) := by
  refine ⟨?_, ?_, ?_⟩
  · simp [add_card_to_row_by_name, h1, h2, hnm, hc0, hrow, hlst, record_history]
  · intro s' row' prompt h
    simp [add_card_to_row_by_name, h]
  · intro s' t' td' row' nm' c0' h1' h2' hnm' hc0' hmiss
    simp [add_card_to_row_by_name, h1', h2', hnm', hc0', hmiss]

/-- Claim C8, witness: a card `"n"` added to row `"A"` of the valid state
lands in column `"1.0"` (index 0), and an add over a document with no
current table is a silent no-op. -/
theorem C8_witness :
    add_card_to_row_by_name validState "A" (some "n")
      = MutResult.ok
          ⟨⟨validState.data.current_table,
            setA validState.data.tables "T"
              ⟨["A"], ["1.0"],
               setA [("A", [("1.0", [])])] "A"
                 (setA [("1.0", [])] "1.0" ([] ++ [create_card "n"])),
               [("A", "#ffffff")]⟩⟩,
           some "A",
           trimHist (validState.history ++ [capture_history_state validState]),
           []⟩
    ∧ add_card_to_row_by_name emptyState "Q" (some "n") = MutResult.ok emptyState := by
  have h := C8_add_card_first_column validState "T"
    ⟨["A"], ["1.0"], [("A", [("1.0", [])])], [("A", "#ffffff")]⟩
    "A" "n" "1.0" [("1.0", [])] [] rfl rfl (by decide) rfl rfl rfl
  exact ⟨h.1, h.2.1 emptyState "Q" (some "n") rfl⟩

end Klausurmaster
